import Mathlib

/-!
Verification of `src/Zap.py` (a Zendesk ticket exporter) against its
natural-language specification.

The Python source is shallowly embedded: pure fragments become Lean
functions; the stateful HTTP retry loop becomes a recursion over an
explicit list of attempt outcomes (the successive results the network
would deliver) that also records the sleeps performed; `sys.exit` error
paths become constructors of explicit error types.  Instants are seconds
since the Unix epoch as `Int`; the fixed reference timezone Asia/Manila
(UTC+8, no daylight saving) is the constant offset `mnlOffset`.
Python `datetime.date` values are embedded through the standard civil
calendar day-number algorithm (`Date.toOrdinal`, days since 1970-01-01).

Scope notes, stated once here: string scanning models the ASCII part of
Python's `\s` class (the scripts only ever receive ASCII expressions);
`float()` parsing is modelled for sign/decimal forms without exponents
(the `Retry-After` values the claims concern); Python integers are `Int`;
ticket ids collected by the harvester are kept as numbers (the source
renders them with `str()` only to build URLs, which is injective on
numbers and elided here).
-/

namespace Zap

/-! ## Python string helpers -/

/-- ASCII characters matched by Python's regex class `\s`. -/
def isPySpace (c : Char) : Bool :=
  c = ' ' || c = '\t' || c = '\n' || c = '\r' || c = '\x0b' || c = '\x0c'

/-- Drop leading whitespace from a character list. -/
def dropSpaces (cs : List Char) : List Char := cs.dropWhile isPySpace

/-- Python `str.strip()`: remove leading and trailing whitespace. -/
def pyStrip (s : String) : String :=
  String.mk (((dropSpaces s.data).reverse.dropWhile isPySpace).reverse)

/-- Numeric value of a list of decimal digit characters. -/
def digitsVal (cs : List Char) : Nat :=
  cs.foldl (fun a c => a * 10 + (c.toNat - 48)) 0

/-! ## ResilientFetcher: `ZendeskHttp._get_json` (src/Zap.py lines 29-91)

The retry loop is embedded as a function of the list of successive
outcomes the network produces for the repeated `GET` of one URL.  The
result records the value returned (or the fatal error on which the
script would `sys.exit`) together with the list of sleeps performed, in
seconds and in order.  `none` means the outcome script was exhausted
before the loop terminated (never happens for the inputs considered). -/

/-- One HTTP response: status code, optional `Retry-After` header value,
and the parsed JSON body (`none` models a body `r.json()` rejects).
The body is abstracted to a `String` token. -/
structure HttpResponse where
  status : Nat
  retryAfter : Option String
  body : Option String
deriving DecidableEq

/-- Outcome of one `self.o.get(...)` call: a transport-level
`requests.RequestException` (connection error / timeout), or a response. -/
inductive Attempt where
  | exn : Attempt
  | resp : HttpResponse → Attempt
deriving DecidableEq

/-- Fatal error paths of `_get_json` (each is a `print` + `sys.exit(1)`
in the source). -/
inductive FetchErr where
  | networkExhausted : FetchErr
  | rateLimitExhausted : FetchErr
  | serverErrorExhausted : FetchErr
  | authFailed : Nat → FetchErr
  | httpError : Nat → FetchErr
  | malformedResponse : FetchErr
deriving DecidableEq

/-- Truncating value of Python `int(float(s))` for sign/decimal strings:
optional sign, then digits with at most one decimal point and at least
one digit.  Exponent, infinity and nan forms are out of scope (they are
not small retry hints; any unhandled form simply fails to parse, which
the caller turns into the same default as a raised exception). -/
def pyIntOfFloatStr (s : String) : Option Int :=
  let cs := (pyStrip s).data
  let (sgn, cs) : Int × List Char :=
    match cs with
    | '-' :: r => (-1, r)
    | '+' :: r => (1, r)
    | _ => (1, cs)
  let intPart := cs.takeWhile Char.isDigit
  let rest := cs.dropWhile Char.isDigit
  match rest with
  | [] => if intPart.isEmpty then none else some (sgn * (digitsVal intPart : Int))
  | '.' :: frac =>
      if frac.all Char.isDigit && !(intPart.isEmpty && frac.isEmpty) then
        some (sgn * (digitsVal intPart : Int))
      else none
  | _ => none

/-- Sleep chosen on HTTP 429 (src/Zap.py lines 44-48):
`sRetry = headers.get("Retry-After", "2")`, then
`max(1, int(float(sRetry)))`, defaulting to `2` if that raises. -/
def sleepFor429 (retryAfter : Option String) : Nat :=
  match pyIntOfFloatStr (retryAfter.getD "2") with
  | some n => (max 1 n).toNat
  | none => 2

/-- Exponential backoff used for transport errors and HTTP 5xx
(src/Zap.py lines 39 and 63): `min(2 ** (nTry - 1), 30)`. -/
def backoff (nTry : Nat) : Nat := min (2 ^ (nTry - 1)) 30

/-- The retry loop of `_get_json`.  `nTry` is the number of attempts
already made; each recursive step consumes one outcome, increments the
counter, and mirrors the branch structure of src/Zap.py lines 31-91.
Returns the result paired with the sleeps performed so far. -/
def getJsonAux (nMaxRetries : Nat) (nTry : Nat) (sleeps : List Nat) :
    List Attempt → Option (Except FetchErr String × List Nat)
  | [] => none
  | a :: rest =>
    let nTry := nTry + 1
    match a with
    | .exn =>
        if nTry ≥ nMaxRetries then some (.error .networkExhausted, sleeps)
        else getJsonAux nMaxRetries nTry (sleeps ++ [backoff nTry]) rest
    | .resp r =>
        if r.status = 429 then
          let nSleep := sleepFor429 r.retryAfter
          if nTry ≥ nMaxRetries then some (.error .rateLimitExhausted, sleeps)
          else getJsonAux nMaxRetries nTry (sleeps ++ [nSleep]) rest
        else if 500 ≤ r.status ∧ r.status < 600 then
          if nTry ≥ nMaxRetries then some (.error .serverErrorExhausted, sleeps)
          else getJsonAux nMaxRetries nTry (sleeps ++ [backoff nTry]) rest
        else if r.status = 401 ∨ r.status = 403 then
          some (.error (.authFailed r.status), sleeps)
        else if 400 ≤ r.status ∧ r.status < 600 then
          some (.error (.httpError r.status), sleeps)
        else
          match r.body with
          | none => some (.error .malformedResponse, sleeps)
          | some b => some (.ok b, sleeps)

/-- `_get_json` with its default retry budget of 6 attempts. -/
def getJson (nMaxRetries : Nat) (attempts : List Attempt) :
    Option (Except FetchErr String × List Nat) :=
  getJsonAux nMaxRetries 0 [] attempts

/-! ## Calendar model

A calendar date with a validity-checked constructor mirroring what
`datetime.datetime.strptime(s, "%Y-%m-%d")` accepts, and the standard
civil-calendar day number (days since the epoch 1970-01-01), which is
what `datetime`'s proleptic Gregorian arithmetic computes. -/

structure Date where
  y : Nat
  m : Nat
  d : Nat
deriving DecidableEq

/-- Gregorian leap-year rule. -/
def isLeapYear (y : Nat) : Bool := y % 4 = 0 && (y % 100 ≠ 0 || y % 400 = 0)

/-- Number of days in a month. -/
def daysInMonth (y m : Nat) : Nat :=
  if m = 2 then (if isLeapYear y then 29 else 28)
  else if m = 4 ∨ m = 6 ∨ m = 9 ∨ m = 11 then 30
  else 31

/-- Day number of a date: days since 1970-01-01 in the proleptic
Gregorian calendar (the standard days-from-civil computation). -/
def Date.toOrdinal (dt : Date) : Int :=
  let y : Int := if dt.m ≤ 2 then (dt.y : Int) - 1 else (dt.y : Int)
  let era : Int := y.fdiv 400
  let yoe : Int := y - era * 400
  let mp : Int := ((dt.m : Int) + 9) % 12
  let doy : Int := (153 * mp + 2).fdiv 5 + (dt.d : Int) - 1
  let doe : Int := yoe * 365 + yoe.fdiv 4 - yoe.fdiv 100 + doy
  era * 146097 + doe - 719468

/-- Seconds per day. -/
def secPerDay : Int := 86400

/-- Fixed offset of the reference timezone Asia/Manila (UTC+8): Manila
wall-clock seconds = UTC seconds + `mnlOffset`. -/
def mnlOffset : Int := 8 * 3600

/-- UTC instant (epoch seconds) of a Manila wall-clock instant given as
day number and second of day; this is what
`datetime.combine(d, t, tzMnl).astimezone(timezone.utc)` denotes. -/
def mnlToUtc (day : Int) (secOfDay : Int) : Int := day * secPerDay + secOfDay - mnlOffset

/-- Manila day number containing a UTC instant (`nowMnl.date()`). -/
def mnlDay (nowUtc : Int) : Int := (nowUtc + mnlOffset).ediv secPerDay

/-- Manila wall-clock second of day of a UTC instant (`nowMnl.time()`
as seconds). -/
def mnlSecOfDay (nowUtc : Int) : Int := (nowUtc + mnlOffset).emod secPerDay

/-! ## Expression parsing (src/Zap.py lines 149-158, 192-197) -/

/-- Split off an exact run of `n` decimal digits. -/
def splitDigits : Nat → List Char → Option (List Char × List Char)
  | 0, cs => some ([], cs)
  | n + 1, c :: cs =>
      if c.isDigit then (splitDigits n cs).map (fun p => (c :: p.1, p.2)) else none
  | _ + 1, [] => none

/-- Match the regex fragment `\d{4}-\d{2}-\d{2}` at the head of the
input, returning the matched text and the remainder. -/
def parseDateToken (cs : List Char) : Option (String × List Char) :=
  match splitDigits 4 cs with
  | some (ys, '-' :: cs1) =>
      match splitDigits 2 cs1 with
      | some (ms, '-' :: cs2) =>
          match splitDigits 2 cs2 with
          | some (ds, rest) => some (String.mk (ys ++ '-' :: ms ++ '-' :: ds), rest)
          | none => none
      | _ => none
  | _ => none

/-- Python `re.match(r"^\s*(\d{4}-\d{2}-\d{2})\s+TO\s+(\d{4}-\d{2}-\d{2})\s*$", part)`
(src/Zap.py line 154; note `TO` is matched case-sensitively there):
returns the two captured date strings. -/
def parseTerm (s : String) : Option (String × String) :=
  match parseDateToken (dropSpaces s.data) with
  | none => none
  | some (d0, cs1) =>
      if (dropSpaces cs1).length = cs1.length then none   -- \s+ needs ≥ 1 space
      else
        match dropSpaces cs1 with
        | 'T' :: 'O' :: cs2 =>
            if (dropSpaces cs2).length = cs2.length then none
            else
              match parseDateToken (dropSpaces cs2) with
              | some (d1, rest) => if rest.all isPySpace then some (d0, d1) else none
              | none => none
        | _ => none

/-- Match one occurrence of `re.split`'s pattern `\s+OR\s+`
(case-insensitive `OR`) at the head of the input; on success return the
remainder after the (greedy) match. -/
def matchORSep (cs : List Char) : Option (List Char) :=
  if (dropSpaces cs).length = cs.length then none
  else
    match dropSpaces cs with
    | c1 :: c2 :: rest =>
        if (c1 = 'O' || c1 = 'o') && (c2 = 'R' || c2 = 'r') then
          if (dropSpaces rest).length = rest.length then none
          else some (dropSpaces rest)
        else none
    | _ => none

/-- Left-to-right scan of `re.split(r"\s+OR\s+", s, flags=IGNORECASE)`:
accumulate the current piece until a separator matches.  `fuel` bounds
the recursion; `splitOR` supplies enough fuel that it is never
exhausted (every step consumes at least one character). -/
def splitORAux : Nat → List Char → List Char → List String
  | 0, cs, acc => [String.mk (acc.reverse ++ cs)]
  | fuel + 1, cs, acc =>
      match matchORSep cs with
      | some rest => String.mk acc.reverse :: splitORAux fuel rest []
      | none =>
          match cs with
          | [] => [String.mk acc.reverse]
          | c :: cs' => splitORAux fuel cs' (c :: acc)

/-- Python `re.split(r"\s+OR\s+", s, flags=re.IGNORECASE)`. -/
def splitOR (s : String) : List String := splitORAux (s.data.length + 1) s.data []

/-- Map each element through an option-valued function, failing on the
first failure (the traversal the per-term parse loop performs). -/
def mapOpt (f : α → Option β) : List α → Option (List β)
  | [] => some []
  | a :: l =>
      match f a, mapOpt f l with
      | some b, some bs => some (b :: bs)
      | _, _ => none

/-- Date-range parsing of src/Zap.py lines 152-158: strip the
expression, split on `OR`, and require every term to match the
`YYYY-MM-DD TO YYYY-MM-DD` regex; `none` is the
`sys.exit` on an invalid date expression. -/
def parseRangesExpr (s : String) : Option (List (String × String)) :=
  mapOpt parseTerm (splitOR (pyStrip s))

/-- Python `datetime.datetime.strptime(s, "%Y-%m-%d").date()`: exactly
`\d{4}-\d{2}-\d{2}` with a real calendar month and day. -/
def parseDate (s : String) : Option Date :=
  match s.data with
  | [y1, y2, y3, y4, '-', m1, m2, '-', d1, d2] =>
      if [y1, y2, y3, y4, m1, m2, d1, d2].all Char.isDigit then
        let y := digitsVal [y1, y2, y3, y4]
        let m := digitsVal [m1, m2]
        let d := digitsVal [d1, d2]
        if 1 ≤ m ∧ m ≤ 12 ∧ 1 ≤ d ∧ d ≤ daysInMonth y m then some ⟨y, m, d⟩ else none
      else none
  | _ => none

/-- One or two decimal digits whose value lies in `[lo, hi]`, preferring
two digits (the regex alternations CPython's `_strptime` builds for
`%I` and `%M`). -/
def parse12Digits (lo hi : Nat) (cs : List Char) : Option (Nat × List Char) :=
  match cs with
  | c1 :: c2 :: rest =>
      if c1.isDigit && c2.isDigit && lo ≤ digitsVal [c1, c2] && digitsVal [c1, c2] ≤ hi then
        some (digitsVal [c1, c2], rest)
      else if c1.isDigit && lo ≤ digitsVal [c1] && digitsVal [c1] ≤ hi then
        some (digitsVal [c1], c2 :: rest)
      else none
  | [c1] =>
      if c1.isDigit && lo ≤ digitsVal [c1] && digitsVal [c1] ≤ hi then
        some (digitsVal [c1], [])
      else none
  | [] => none

/-- Python `datetime.datetime.strptime(s, "%I:%M %p").time()` as seconds
of day: a 12-hour clock value `H:MM AM/PM` (`%p` matched
case-insensitively, the format-string space matching `\s+`). -/
def parseTime12 (s : String) : Option Int :=
  match parse12Digits 1 12 s.data with
  | none => none
  | some (h12, cs1) =>
      match cs1 with
      | ':' :: cs2 =>
          match parse12Digits 0 59 cs2 with
          | none => none
          | some (mins, cs3) =>
              if (dropSpaces cs3).length = cs3.length then none
              else
                match dropSpaces cs3 with
                | [p1, p2] =>
                    if (p1 = 'A' || p1 = 'a') && (p2 = 'M' || p2 = 'm') then
                      some (((h12 % 12 : Nat) : Int) * 3600 + (mins : Int) * 60)
                    else if (p1 = 'P' || p1 = 'p') && (p2 = 'M' || p2 = 'm') then
                      some (((h12 % 12 : Nat) : Int) * 3600 + 12 * 3600 + (mins : Int) * 60)
                    else none
                | _ => none
      | _ => none

/-! ## TimeWindowPlanner: `buildWindowsUtc` (src/Zap.py lines 149-239) -/

/-- One produced time window: UTC start/end instants and a label. -/
structure Window where
  startUtc : Int
  endUtc : Int
  label : String
deriving DecidableEq

/-- Fatal input errors of `buildWindowsUtc` (each a `print` +
`sys.exit(1)`), plus `dateParseCrash` for the uncaught `ValueError` a
regex-valid but non-calendar date (e.g. month 13) raises in
`strptime` at lines 220-221 and 232. -/
inductive PlanError where
  | invalidExpression : PlanError
  | incompleteTimeWindow : PlanError
  | invalidTime : PlanError
  | nonPositiveWindow : PlanError
  | ambiguousDateCount : PlanError
  | multiDayRangeWithTime : PlanError
  | invalidCombination : PlanError
  | dateParseCrash : PlanError
deriving DecidableEq

/-- Python truthiness of the optional CLI strings (`None` and `""` are
both falsy). -/
def pyTruthy : Option String → Bool
  | none => false
  | some s => !(s == "")

/-- Default shift window (src/Zap.py lines 163-186): dispatch on the
current Manila time of day against the boundaries 01:30 (= 5400 s),
09:30 (= 34200 s) and 18:30 (= 66600 s). -/
def defaultShiftWindow (nowUtc : Int) : Window :=
  let d := mnlDay nowUtc
  let t := mnlSecOfDay nowUtc
  if t < 5400 then
    ⟨mnlToUtc d (13 * 3600), mnlToUtc (d + 1) (3600 + 30 * 60), "afternoon"⟩
  else if t < 34200 then
    ⟨mnlToUtc (d - 1) (21 * 3600 + 30 * 60), mnlToUtc d (9 * 3600 + 30 * 60), "evening"⟩
  else if t < 66600 then
    ⟨mnlToUtc d (18 * 3600 + 30 * 60), mnlToUtc (d + 1) (6 * 3600 + 30 * 60), "morning"⟩
  else
    ⟨mnlToUtc d (18 * 3600 + 30 * 60), mnlToUtc (d + 1) (6 * 3600 + 30 * 60), "morning"⟩

/-- Window for one `d0 TO d1` term in the date-only branch
(src/Zap.py lines 219-224): local 00:00:00 on the start date to local
23:59:59 on the end date, converted to UTC; `none` when `strptime`
would raise on a non-calendar date. -/
def termWindow (r : String × String) : Option Window :=
  match parseDate r.1, parseDate r.2 with
  | some sd, some ed =>
      some ⟨mnlToUtc sd.toOrdinal 0, mnlToUtc ed.toOrdinal 86399, "date-only"⟩
  | _, _ => none

/-- Branches of src/Zap.py lines 206-239, reached after the date terms
(`aDateRanges`) and the optional time-of-day window have been parsed. -/
def buildWindowsWithTimes (aDateRanges : List (String × String))
    (times : Option (Int × Int)) (nowUtc : Int) : Except PlanError (List Window) :=
  match times with
  | some (tStart, tEnd) =>
      if ¬ aDateRanges.isEmpty ∧ aDateRanges.length ≠ 1 then .error .ambiguousDateCount
      else if aDateRanges.isEmpty then
        .ok [⟨mnlToUtc (mnlDay nowUtc) tStart, mnlToUtc (mnlDay nowUtc) tEnd, "time-only"⟩]
      else
        match aDateRanges with
        | [(d0, d1)] =>
            if d0 ≠ d1 then .error .multiDayRangeWithTime
            else
              match parseDate d0 with
              | none => .error .dateParseCrash
              | some dd =>
                  .ok [⟨mnlToUtc dd.toOrdinal tStart, mnlToUtc dd.toOrdinal tEnd, "date+time"⟩]
        | _ => .error .invalidCombination
  | none =>
      if ¬ aDateRanges.isEmpty then
        match mapOpt termWindow aDateRanges with
        | none => .error .dateParseCrash
        | some ws => .ok ws
      else .error .invalidCombination

/-- Stage of `buildWindowsUtc` after the date terms have been parsed
(src/Zap.py lines 160-239): default-shift dispatch, time-of-day window
validation, then the branch selection of `buildWindowsWithTimes`. -/
def planWithRanges (aDateRanges : List (String × String))
    (sStartTime sEndTime : Option String) (nowUtc : Int) : Except PlanError (List Window) :=
  if aDateRanges.isEmpty ∧ ¬ pyTruthy sStartTime ∧ ¬ pyTruthy sEndTime then
    .ok [defaultShiftWindow nowUtc]
  else if pyTruthy sStartTime ∨ pyTruthy sEndTime then
    if ¬ (pyTruthy sStartTime ∧ pyTruthy sEndTime) then .error .incompleteTimeWindow
    else
      match parseTime12 (pyStrip (sStartTime.getD "")),
          parseTime12 (pyStrip (sEndTime.getD "")) with
      | some tStart, some tEnd =>
          if tEnd ≤ tStart then .error .nonPositiveWindow
          else buildWindowsWithTimes aDateRanges (some (tStart, tEnd)) nowUtc
      | _, _ => .error .invalidTime
  else buildWindowsWithTimes aDateRanges none nowUtc

/-- `buildWindowsUtc(sDateExpr, sStartTime, sEndTime)` (src/Zap.py
lines 149-239), with the ambient "current instant" made an explicit
`nowUtc` parameter. -/
def buildWindowsUtc (sDateExpr sStartTime sEndTime : Option String) (nowUtc : Int) :
    Except PlanError (List Window) :=
  match (if pyTruthy sDateExpr then parseRangesExpr (sDateExpr.getD "") else some []) with
  | none => .error .invalidExpression
  | some aDateRanges => planWithRanges aDateRanges sStartTime sEndTime nowUtc

/-! ## Python values and the output-cell normalization
(`writeOutput`, src/Zap.py lines 273-321) -/

/-- The JSON-like values a ticket field or row cell can hold.  `none` is
Python `None`; numeric scalars are embedded as integers. -/
inductive PyVal where
  | none : PyVal
  | bool : Bool → PyVal
  | num : Int → PyVal
  | str : String → PyVal
  | list : List PyVal → PyVal
  | dict : List (String × PyVal) → PyVal

/-- Lower-case hexadecimal digit. -/
def hexDigit (n : Nat) : Char :=
  if n < 10 then Char.ofNat (48 + n) else Char.ofNat (87 + (n - 10))

/-- JSON string escaping as `json.dumps` performs it (with
`ensure_ascii=False`, so non-ASCII characters pass through). -/
def jsonEscapeChar (c : Char) : String :=
  if c = '"' then "\\\""
  else if c = '\\' then "\\\\"
  else if c = '\n' then "\\n"
  else if c = '\r' then "\\r"
  else if c = '\t' then "\\t"
  else if c = '\x08' then "\\b"
  else if c = '\x0c' then "\\f"
  else if c.toNat < 32 then
    String.mk ['\\', 'u', '0', '0', hexDigit (c.toNat / 16), hexDigit (c.toNat % 16)]
  else String.singleton c

/-- Quote and escape a string for JSON output. -/
def jsonQuote (s : String) : String :=
  "\"" ++ String.join (s.data.map jsonEscapeChar) ++ "\""

mutual

/-- Python `json.dumps(v, ensure_ascii=False)` with its default
separators (`", "` between items, `": "` after keys). -/
def jsonDumps : PyVal → String
  | .none => "null"
  | .bool true => "true"
  | .bool false => "false"
  | .num n => toString n
  | .str s => jsonQuote s
  | .list items => "[" ++ jsonDumpsItems items ++ "]"
  | .dict entries => "\x7b" ++ jsonDumpsEntries entries ++ "\x7d"

/-- Comma-separated serialization of a JSON array's items. -/
def jsonDumpsItems : List PyVal → String
  | [] => ""
  | [v] => jsonDumps v
  | v :: rest => jsonDumps v ++ ", " ++ jsonDumpsItems rest

/-- Comma-separated serialization of a JSON object's entries. -/
def jsonDumpsEntries : List (String × PyVal) → String
  | [] => ""
  | [(k, v)] => jsonQuote k ++ ": " ++ jsonDumps v
  | (k, v) :: rest => jsonQuote k ++ ": " ++ jsonDumps v ++ ", " ++ jsonDumpsEntries rest

end

/-- Python `str.replace` with a single-character pattern and
replacement: replace every occurrence of `a` by `b`. -/
def pyReplaceChar (a b : Char) (cs : List Char) : List Char :=
  cs.map (fun c => if c = a then b else c)

/-- The text normalization `vRaw.replace("\r", " ").replace("\n", " ")`
of src/Zap.py lines 287 and 313. -/
def pyStripCRLF (s : String) : String :=
  String.mk (pyReplaceChar '\n' ' ' (pyReplaceChar '\r' ' ' s.data))

/-- Python `dict.get(k)` over an insertion-ordered association list
(`none` when the key is absent). -/
def alookup {β : Type} : List (String × β) → String → Option β
  | [], _ => none
  | (k', v) :: d, k => if k' = k then some v else alookup d k

/-- Python `dict[k] = v`: replace the value in place if the key exists,
otherwise append the new entry. -/
def dictUpsert {β : Type} (d : List (String × β)) (k : String) (v : β) :
    List (String × β) :=
  if d.any (fun p => p.1 = k) then
    d.map (fun p => if p.1 = k then (k, v) else p)
  else d ++ [(k, v)]

/-- One output row: an insertion-ordered mapping from column name to
cell value. -/
def Row : Type := List (String × PyVal)

/-- Python `row.get(k)` on a row (missing key gives `None`). -/
def rowGet (row : Row) (k : String) : PyVal := (alookup row k).getD .none

/-- Cell normalization of the CSV path of `writeOutput`
(src/Zap.py lines 281-290): `None` to empty string, `dict`/`list` to
`json.dumps`, strings with CR and LF each replaced by a space, all
other scalars unchanged. -/
def csvCell : PyVal → PyVal
  | .none => .str ""
  | .dict d => .str (jsonDumps (.dict d))
  | .list l => .str (jsonDumps (.list l))
  | .str s => .str (pyStripCRLF s)
  | v => v

/-- Cell normalization of the XLSX path of `writeOutput`
(src/Zap.py lines 307-315, textually duplicated from the CSV path). -/
def xlsxCell : PyVal → PyVal
  | .none => .str ""
  | .dict d => .str (jsonDumps (.dict d))
  | .list l => .str (jsonDumps (.list l))
  | .str s => .str (pyStripCRLF s)
  | v => v

/-- The grid of normalized cells `writeOutput` emits for the CSV file:
one row per input row, one cell per header, each passed through
`csvCell` (src/Zap.py lines 278-291). -/
def writeRows (aHeaders : List String) (aRows : List Row) : List (List PyVal) :=
  aRows.map (fun row => aHeaders.map (fun k => csvCell (rowGet row k)))

/-! ## ReferenceResolver: class `Resolver` (src/Zap.py lines 103-147) -/

/-- The three reference caches (`self.org`, `self.usr`, `self.grp`),
each an insertion-ordered mapping from stringified entity id to
resolved name. -/
structure Resolver where
  org : List (String × String)
  usr : List (String × String)
  grp : List (String × String)

/-- The three reference kinds. -/
inductive RefKind where
  | org : RefKind
  | usr : RefKind
  | grp : RefKind

/-- An entity returned by a `show_many` endpoint: its id and optional
display name. -/
structure RefEntity where
  id : Nat
  name : Option String

/-- Python `str(v)` for an optional numeric foreign key
(`str(None) = "None"`). -/
def pyStrOpt : Option Nat → String
  | .none => "None"
  | some n => toString n

/-- `Resolver.org_name` (src/Zap.py line 145): a pure read of the `org`
cache, `self.org.get(str(v), "")`. -/
def org_name (res : Resolver) (v : Option Nat) : String :=
  (alookup res.org (pyStrOpt v)).getD ""

/-- `Resolver.user_name` (src/Zap.py line 146). -/
def user_name (res : Resolver) (v : Option Nat) : String :=
  (alookup res.usr (pyStrOpt v)).getD ""

/-- `Resolver.group_name` (src/Zap.py line 147). -/
def group_name (res : Resolver) (v : Option Nat) : String :=
  (alookup res.grp (pyStrOpt v)).getD ""

/-- Merge the entities of one `show_many` response into a cache:
`cache[str(x.get("id"))] = x.get("name") or ""` for each entity
(src/Zap.py lines 118-119, 123-124, 128-129). -/
def mergeEntities (cache : List (String × String)) (entities : List RefEntity) :
    List (String × String) :=
  entities.foldl (fun c e => dictUpsert c (toString e.id) (e.name.getD "")) cache

/-- `Resolver._fetch_batch` (src/Zap.py lines 110-129) for one kind:
drop falsy ids, do nothing when none remain, otherwise merge the
server's `show_many` response (the `server` parameter stands for the
remote endpoint's reply to the requested id list). -/
def fetchBatch (server : RefKind → List String → List RefEntity) (kind : RefKind)
    (cache : List (String × String)) (ids : List String) : List (String × String) :=
  let ids := ids.filter (fun i => i ≠ "")
  if ids.isEmpty then cache else mergeEntities cache (server kind ids)

/-- First-occurrence deduplication, modelling the Python `set` the
preload loop accumulates (its iteration order is unspecified; the model
fixes first-occurrence order, which the caches do not depend on). -/
def dedupFirst (l : List String) : List String :=
  l.foldl (fun acc x => if x ∈ acc then acc else acc ++ [x]) []

/-- A foreign key is collected only when truthy (`if t.get(...):`),
and is stringified. -/
def truthyKey : Option Nat → Option String
  | .none => none
  | some n => if n = 0 then none else some (toString n)

/-- A raw ticket as the rows and caches consume it. -/
structure Ticket where
  id : Nat
  organization_id : Option Nat
  assignee_id : Option Nat
  requester_id : Option Nat
  submitter_id : Option Nat
  group_id : Option Nat
  status : Option String
  type : Option String
  subject : Option String
  tags : Option (List String)
  created_at : Option String
  updated_at : Option String
  custom_fields : List (Nat × PyVal)

/-- `Resolver.preload_from_tickets` (src/Zap.py lines 131-143): collect
the distinct truthy foreign keys of each kind, then fetch the ones not
already cached in one batch per kind. -/
def preloadFromTickets (server : RefKind → List String → List RefEntity)
    (res : Resolver) (aTickets : List Ticket) : Resolver :=
  let aOrg := dedupFirst (aTickets.filterMap (fun t => truthyKey t.organization_id))
  let aUsr := dedupFirst (aTickets.flatMap (fun t =>
    [t.assignee_id, t.requester_id, t.submitter_id].filterMap truthyKey))
  let aGrp := dedupFirst (aTickets.filterMap (fun t => truthyKey t.group_id))
  { org := fetchBatch server .org res.org
      (aOrg.filter (fun i => (alookup res.org i).isNone))
    usr := fetchBatch server .usr res.usr
      (aUsr.filter (fun i => (alookup res.usr i).isNone))
    grp := fetchBatch server .grp res.grp
      (aGrp.filter (fun i => (alookup res.grp i).isNone)) }

/-! ## HarvestCoordinator: `harvestTicketsInWindows`
(src/Zap.py lines 241-271)

The paginated search is embedded as the per-window list of result pages
the cursor chain delivers; the bulk `show_many` fetch as a function
from a requested id list to the tickets the server returns. -/

/-- One entry of a search response's `results` array (only the
result type and the id are consumed). -/
structure SearchResult where
  result_type : String
  id : Nat
deriving DecidableEq

/-- Processing of one search result (src/Zap.py lines 252-258): state
is the seen-id set (as a list) paired with the accumulated id list;
non-ticket results are ignored and already-seen ids silently skipped. -/
def hStep (st : List Nat × List Nat) (r : SearchResult) : List Nat × List Nat :=
  if r.result_type = "ticket" then
    if r.id ∈ st.1 then st else (r.id :: st.1, st.2 ++ [r.id])
  else st

/-- The id-collection phase over all windows and their pages
(the nested loops of src/Zap.py lines 245-259). -/
def harvestIds (windowsPages : List (List (List SearchResult))) : List Nat :=
  (windowsPages.foldl
    (fun st pages => pages.foldl (fun st2 page => page.foldl hStep st2) st)
    ([], [])).2

/-- All search results of all pages of all windows, in processing
order. -/
def allResults (windowsPages : List (List (List SearchResult))) : List SearchResult :=
  (windowsPages.map List.flatten).flatten

/-- Python `aIds[i:i+nChunk]` slicing loop: break a list into
consecutive chunks of `n` (`fuel` bounds the recursion; callers supply
the list's length, which suffices for `n ≥ 1`). -/
def chunksAux {α : Type} (n : Nat) : Nat → List α → List (List α)
  | 0, l => if l.isEmpty then [] else [l]
  | fuel + 1, l => if l.isEmpty then [] else l.take n :: chunksAux n fuel (l.drop n)

/-- Consecutive chunks of size `n`. -/
def chunksOf {α : Type} (n : Nat) (l : List α) : List (List α) := chunksAux n l.length l

/-- `harvestTicketsInWindows` (src/Zap.py lines 241-271): collect
deduplicated ticket ids over all windows, then fetch the full tickets
in `show_many` batches of 100, concatenating the responses. -/
def harvestTicketsInWindows (showMany : List Nat → List Ticket)
    (windowsPages : List (List (List SearchResult))) : List Ticket :=
  let aIds := harvestIds windowsPages
  if aIds.isEmpty then []
  else (chunksOf 100 aIds).foldl (fun aAll c => aAll ++ showMany c) []

/-! ## RecordProjector: the row-building loop of `main`
(src/Zap.py lines 449-499) -/

/-- Python `x or ""` for an optional string. -/
def pyOrEmpty : Option String → String
  | .none => ""
  | some s => s

/-- Custom-field cell for one FieldSpec `(sName, sTyp, sId)`
(src/Zap.py lines 482-493): empty when `sId` is falsy; otherwise the
first custom field whose stringified id equals `sId`, with a `None`
value (or no match) becoming the empty string. -/
def customCell (t : Ticket) (sId : String) : PyVal :=
  if sId = "" then .str ""
  else
    match t.custom_fields.find? (fun cf => toString cf.1 = sId) with
    | some cf =>
        match cf.2 with
        | .none => .str ""
        | v => v
    | .none => .str ""

/-- The standard-column part of `dRow` (src/Zap.py lines 469-480). -/
def stdRow (res : Resolver) (t : Ticket) : Row :=
  [("ID", .num (t.id : Int)),
   ("Organization", .str (org_name res t.organization_id)),
   ("Assignee", .str (user_name res t.assignee_id)),
   ("Group", .str (group_name res t.group_id)),
   ("Status", .str (pyOrEmpty t.status)),
   ("Type", .str (pyOrEmpty t.type)),
   ("Subject", .str (pyOrEmpty t.subject)),
   ("Tags", .str (String.intercalate "," (t.tags.getD []))),
   ("Created at", .str (pyOrEmpty t.created_at)),
   ("Updated at", .str (pyOrEmpty t.updated_at))]

/-- One output row for a ticket: the standard columns followed by the
`dRow[sName] = v` custom-column assignments (src/Zap.py lines 482-494),
with Python dict-assignment semantics. -/
def buildRow (res : Resolver) (aFlds : List (String × String × String)) (t : Ticket) :
    Row :=
  aFlds.foldl (fun row f => dictUpsert row f.1 (customCell t f.2.2)) (stdRow res t)

/-- Processing of one ticket in the projection loop (src/Zap.py
lines 463-497): skip if its id is in `dSeen`, otherwise record the id
and append the built row. -/
def projectStep (aFlds : List (String × String × String)) (res : Resolver)
    (st : List Nat × List Row) (t : Ticket) : List Nat × List Row :=
  if t.id ∈ st.1 then st
  else (t.id :: st.1, st.2 ++ [buildRow res aFlds t])

/-- One chunk of the projection loop (src/Zap.py lines 459-461): the
chunk first preloads the reference caches, then each of its tickets is
processed with the loop's persistent seen-set and row list. -/
def projectChunkStep (server : RefKind → List String → List RefEntity)
    (aFlds : List (String × String × String))
    (acc : Resolver × List Nat × List Row) (chunk : List Ticket) :
    Resolver × List Nat × List Row :=
  let res := preloadFromTickets server acc.1 chunk
  (res, chunk.foldl (projectStep aFlds res) acc.2)

/-- The chunked projection loop of `main` (src/Zap.py lines 449-497):
tickets are processed in chunks of 50, starting from a fresh resolver,
an empty seen-id set and no rows; all three persist across chunks. -/
def projectRows (server : RefKind → List String → List RefEntity)
    (aFlds : List (String × String × String)) (aTickets : List Ticket) : List Row :=
  ((chunksOf 50 aTickets).foldl (projectChunkStep server aFlds)
    (⟨[], [], []⟩, ([], []))).2.2

/-- The `"ID"` cell value of a ticket's row. -/
def pyNum (i : Nat) : PyVal := .num (i : Int)

/-- A ticket carrying nothing but its id (used to instantiate theorems
at concrete inputs). -/
def mkTicket (i : Nat) : Ticket :=
  ⟨i, .none, .none, .none, .none, .none, .none, .none, .none, .none, .none, .none, []⟩

/-- Reference fold for the projection-stage dedup: the seen-set and
accepted-id evolution on ids alone. -/
def dedupFold (st : List Nat × List Nat) (i : Nat) : List Nat × List Nat :=
  if i ∈ st.1 then st else (i :: st.1, st.2 ++ [i])

/-- The ids accepted (first occurrences kept, in order) when folding
`ids` over an initial seen-set. -/
def acceptedIds (seen : List Nat) (ids : List Nat) : List Nat :=
  (ids.foldl dedupFold (seen, [])).2

/-! ## Theorems -/

/-! ### Helper lemmas -/

theorem mapOpt_eq_none_iff {α β : Type} {f : α → Option β} {l : List α} :
    mapOpt f l = none ↔ ∃ a ∈ l, f a = none := by
  induction l with
  | nil => simp [mapOpt]
  | cons a l ih =>
      simp only [mapOpt, List.mem_cons]
      cases hfa : f a <;> cases hml : mapOpt f l <;> simp_all

theorem mapOpt_length {α β : Type} {f : α → Option β} :
    ∀ {l : List α} {r : List β}, mapOpt f l = some r → r.length = l.length := by
  intro l
  induction l with
  | nil => intro r h; simp [mapOpt] at h; simp [← h]
  | cons a l ih =>
      intro r h
      simp only [mapOpt] at h
      cases hfa : f a <;> rw [hfa] at h
      · exact absurd h (by simp)
      · cases hml : mapOpt f l <;> rw [hml] at h
        · exact absurd h (by simp)
        · injection h with h
          subst h
          simp [ih hml]

theorem mapOpt_get {α β : Type} {f : α → Option β} :
    ∀ {l : List α} {r : List β}, mapOpt f l = some r →
      ∀ i (hi : i < l.length) (hr : i < r.length),
        f (l.get ⟨i, hi⟩) = some (r.get ⟨i, hr⟩) := by
  intro l
  induction l with
  | nil => intro r h i hi hr; simp at hi
  | cons a l ih =>
      intro r h i hi hr
      simp only [mapOpt] at h
      cases hfa : f a <;> rw [hfa] at h
      · exact absurd h (by simp)
      · cases hml : mapOpt f l <;> rw [hml] at h
        · exact absurd h (by simp)
        · injection h with h
          subst h
          cases i with
          | zero => simpa using hfa
          | succ j => exact ih hml j (by simpa using hi) (by simpa using hr)

theorem splitORAux_ne_nil : ∀ (fuel : Nat) (cs acc : List Char),
    splitORAux fuel cs acc ≠ [] := by
  intro fuel
  induction fuel with
  | zero => intro cs acc; simp [splitORAux]
  | succ n ih =>
      intro cs acc
      simp only [splitORAux]
      cases matchORSep cs with
      | some rest => simp
      | none => cases cs with
          | nil => simp
          | cons c cs' => exact ih cs' (c :: acc)

theorem buildWindowsWithTimes_ne_invalidExpression
    (r : List (String × String)) (t : Option (Int × Int)) (now : Int) :
    buildWindowsWithTimes r t now ≠ .error .invalidExpression := by
  unfold buildWindowsWithTimes
  cases t with
  | none =>
      by_cases hr : r.isEmpty
      · simp [hr]
      · simp only [hr]
        cases hm : mapOpt termWindow r <;> simp [hm]
  | some p =>
      obtain ⟨ts, te⟩ := p
      simp only []
      split_ifs with h1 h2
      · simp
      · simp
      · split
        · split_ifs with h3
          · simp
          · split <;> simp
        · simp

theorem planWithRanges_ne_invalidExpression
    (r : List (String × String)) (sStartTime sEndTime : Option String) (now : Int) :
    planWithRanges r sStartTime sEndTime now ≠ .error .invalidExpression := by
  unfold planWithRanges
  split_ifs with h1 h2 h3
  all_goals try (exact buildWindowsWithTimes_ne_invalidExpression _ _ _)
  all_goals try simp
  split
  · split_ifs with h4
    · simp
    · exact buildWindowsWithTimes_ne_invalidExpression _ _ _
  · simp

/-- Invariant of the id-collection fold: the accumulated id list has no
duplicates and holds exactly the seen ids. -/
def hInv (st : List Nat × List Nat) : Prop :=
  st.2.Nodup ∧ ∀ x, x ∈ st.2 ↔ x ∈ st.1

theorem hStep_inv {st : List Nat × List Nat} {r : SearchResult} (h : hInv st) :
    hInv (hStep st r) := by
  obtain ⟨hnd, hiff⟩ := h
  unfold hStep
  split_ifs with ht hm
  · exact ⟨hnd, hiff⟩
  · refine ⟨?_, ?_⟩
    · simp only []
      rw [List.nodup_append]
      refine ⟨hnd, List.nodup_singleton _, ?_⟩
      simp only [List.disjoint_singleton]
      exact fun hx => hm ((hiff r.id).mp hx)
    · intro x
      simp only [List.mem_append, List.mem_singleton, List.mem_cons]
      rw [hiff]
      tauto
  · exact ⟨hnd, hiff⟩

theorem foldl_hStep_inv {l : List SearchResult} :
    ∀ {st : List Nat × List Nat}, hInv st → hInv (l.foldl hStep st) := by
  induction l with
  | nil => intro st h; exact h
  | cons r l ih => intro st h; exact ih (hStep_inv h)

theorem foldl_hStep_seen_mono {l : List SearchResult} :
    ∀ {st : List Nat × List Nat} {x : Nat}, x ∈ st.1 → x ∈ (l.foldl hStep st).1 := by
  induction l with
  | nil => intro st x h; exact h
  | cons r l ih =>
      intro st x h
      refine ih ?_
      unfold hStep
      split_ifs <;> simp [h]

theorem foldl_hStep_seen_of_mem {l : List SearchResult} :
    ∀ {st : List Nat × List Nat} {r : SearchResult}, r ∈ l → r.result_type = "ticket" →
      r.id ∈ (l.foldl hStep st).1 := by
  induction l with
  | nil => intro st r h; simp at h
  | cons a l ih =>
      intro st r h ht
      rcases List.mem_cons.mp h with h | h
      · subst h
        rw [List.foldl_cons]
        refine foldl_hStep_seen_mono ?_
        unfold hStep
        rw [if_pos ht]
        split_ifs with hm
        · exact hm
        · simp
      · rw [List.foldl_cons]
        exact ih h ht

theorem foldl_over_flatten {α β : Type} (f : β → α → β) :
    ∀ (L : List (List α)) (init : β),
      L.foldl (fun b l => l.foldl f b) init = L.flatten.foldl f init := by
  intro L
  induction L with
  | nil => intro init; rfl
  | cons l L ih => intro init; simp [List.foldl_append, ih]

theorem harvestIds_eq_flat (wp : List (List (List SearchResult))) :
    harvestIds wp = ((allResults wp).foldl hStep ([], [])).2 := by
  unfold harvestIds allResults
  congr 1
  have h1 : (fun (st : List Nat × List Nat) (pages : List (List SearchResult)) =>
      pages.foldl (fun st2 page => page.foldl hStep st2) st)
      = fun st pages => pages.flatten.foldl hStep st := by
    funext st pages
    exact foldl_over_flatten hStep pages st
  rw [h1, ← List.foldl_map List.flatten (fun st l => l.foldl hStep st)]
  exact foldl_over_flatten hStep (wp.map List.flatten) ([], [])

theorem foldl_append_eq_flatten_map {α β : Type} (f : α → List β) :
    ∀ (L : List α) (init : List β),
      L.foldl (fun acc c => acc ++ f c) init = init ++ (L.map f).flatten := by
  intro L
  induction L with
  | nil => intro init; simp
  | cons c L ih => intro init; simp [ih]

theorem chunksAux_flatten {α : Type} (n : Nat) :
    ∀ (fuel : Nat) (l : List α), (chunksAux n fuel l).flatten = l := by
  intro fuel
  induction fuel with
  | zero =>
      intro l
      unfold chunksAux
      split_ifs with h
      · simp [List.isEmpty_iff.mp h]
      · simp
  | succ m ih =>
      intro l
      unfold chunksAux
      split_ifs with h
      · simp [List.isEmpty_iff.mp h]
      · simp [ih, List.take_append_drop]

theorem alookup_map_upsert_ne {β : Type} (k k' : String) (v : β) (h : k' ≠ k) :
    ∀ (d : List (String × β)),
      alookup (d.map (fun p => if p.1 = k' then (k', v) else p)) k = alookup d k := by
  intro d
  induction d with
  | nil => rfl
  | cons p d ih =>
      simp only [List.map_cons]
      by_cases h1 : p.1 = k'
      · rw [if_pos h1]
        simp only [alookup]
        rw [if_neg h, if_neg (h1 ▸ h : ¬ p.1 = k)]
        exact ih
      · rw [if_neg h1]
        simp only [alookup]
        by_cases h2 : p.1 = k
        · rw [if_pos h2, if_pos h2]
        · rw [if_neg h2, if_neg h2]
          exact ih

theorem alookup_append_single_ne {β : Type} (k k' : String) (v : β) (h : k' ≠ k) :
    ∀ (d : List (String × β)), alookup (d ++ [(k', v)]) k = alookup d k := by
  intro d
  induction d with
  | nil => simp [alookup, h]
  | cons p d ih =>
      simp only [List.cons_append, alookup]
      by_cases h2 : p.1 = k
      · rw [if_pos h2, if_pos h2]
      · rw [if_neg h2, if_neg h2]
        exact ih

theorem alookup_dictUpsert_ne {β : Type} (d : List (String × β)) (k k' : String)
    (v : β) (h : k' ≠ k) : alookup (dictUpsert d k' v) k = alookup d k := by
  unfold dictUpsert
  split_ifs with hany
  · exact alookup_map_upsert_ne k k' v h d
  · exact alookup_append_single_ne k k' v h d

theorem rowGet_buildRow_id (res : Resolver) (aFlds : List (String × String × String))
    (t : Ticket) (h : ∀ f ∈ aFlds, f.1 ≠ "ID") :
    rowGet (buildRow res aFlds t) "ID" = .num (t.id : Int) := by
  have hgen : ∀ (fl : List (String × String × String)) (row : Row),
      (∀ f ∈ fl, f.1 ≠ "ID") → alookup row "ID" = some (.num (t.id : Int)) →
      alookup (fl.foldl (fun r f => dictUpsert r f.1 (customCell t f.2.2)) row) "ID"
        = some (.num (t.id : Int)) := by
    intro fl
    induction fl with
    | nil => intro row hf hrow; exact hrow
    | cons f fl ih =>
        intro row hf hrow
        rw [List.foldl_cons]
        refine ih _ (fun g hg => hf g (List.mem_cons_of_mem f hg)) ?_
        rw [alookup_dictUpsert_ne _ _ _ _ (hf f (List.mem_cons_self f fl))]
        exact hrow
  show (alookup (buildRow res aFlds t) "ID").getD PyVal.none = PyVal.num (t.id : Int)
  rw [show buildRow res aFlds t
      = aFlds.foldl (fun r f => dictUpsert r f.1 (customCell t f.2.2)) (stdRow res t)
    from rfl]
  rw [hgen aFlds (stdRow res t) h rfl]
  rfl

theorem dedupFold_acc : ∀ (ids : List Nat) (seen acc : List Nat),
    ids.foldl dedupFold (seen, acc)
      = ((ids.foldl dedupFold (seen, [])).1, acc ++ (ids.foldl dedupFold (seen, [])).2) := by
  intro ids
  induction ids with
  | nil => intro seen acc; simp
  | cons i ids ih =>
      intro seen acc
      rw [List.foldl_cons, List.foldl_cons]
      by_cases hm : i ∈ seen
      · rw [show dedupFold (seen, acc) i = (seen, acc) from by simp [dedupFold, hm],
          show dedupFold (seen, []) i = (seen, ([] : List Nat)) from by simp [dedupFold, hm]]
        exact ih seen acc
      · rw [show dedupFold (seen, acc) i = (i :: seen, acc ++ [i]) from by
            simp [dedupFold, hm],
          show dedupFold (seen, []) i = (i :: seen, [i]) from by simp [dedupFold, hm]]
        rw [ih (i :: seen) (acc ++ [i]), ih (i :: seen) [i]]
        simp

theorem acceptedIds_append (seen : List Nat) (l1 l2 : List Nat) :
    acceptedIds seen (l1 ++ l2)
      = acceptedIds seen l1 ++ acceptedIds ((l1.foldl dedupFold (seen, [])).1) l2 := by
  unfold acceptedIds
  rw [List.foldl_append, dedupFold_acc l1 seen []]
  rw [dedupFold_acc l2 ((l1.foldl dedupFold (seen, [])).1)
    ([] ++ (l1.foldl dedupFold (seen, [])).2)]

theorem acceptedIds_nodup : ∀ (ids seen acc : List Nat), acc.Nodup →
    (∀ x ∈ acc, x ∈ seen) → ((ids.foldl dedupFold (seen, acc)).2).Nodup := by
  intro ids
  induction ids with
  | nil => intro seen acc h1 h2; exact h1
  | cons i ids ih =>
      intro seen acc h1 h2
      rw [List.foldl_cons]
      by_cases hm : i ∈ seen
      · rw [show dedupFold (seen, acc) i = (seen, acc) from by simp [dedupFold, hm]]
        exact ih seen acc h1 h2
      · rw [show dedupFold (seen, acc) i = (i :: seen, acc ++ [i]) from by
            simp [dedupFold, hm]]
        refine ih (i :: seen) (acc ++ [i]) ?_ ?_
        · rw [List.nodup_append]
          exact ⟨h1, List.nodup_singleton _, by
            simp only [List.disjoint_singleton]
            exact fun hx => hm (h2 i hx)⟩
        · intro x hx
          rcases List.mem_append.mp hx with hx | hx
          · exact List.mem_cons_of_mem _ (h2 x hx)
          · simp at hx
            subst hx
            exact List.mem_cons_self _ _

theorem proj_fold_spec (aFlds : List (String × String × String)) (res : Resolver)
    (h : ∀ f ∈ aFlds, f.1 ≠ "ID") :
    ∀ (ts : List Ticket) (seen : List Nat) (rows : List Row),
      (ts.foldl (projectStep aFlds res) (seen, rows)).1
        = ((ts.map Ticket.id).foldl dedupFold (seen, [])).1
      ∧ ((ts.foldl (projectStep aFlds res) (seen, rows)).2).map (fun r => rowGet r "ID")
        = rows.map (fun r => rowGet r "ID")
          ++ (acceptedIds seen (ts.map Ticket.id)).map pyNum := by
  intro ts
  induction ts with
  | nil => intro seen rows; exact ⟨rfl, by simp [acceptedIds]⟩
  | cons t ts ih =>
      intro seen rows
      rw [List.map_cons, List.foldl_cons, List.foldl_cons]
      by_cases hm : t.id ∈ seen
      · rw [show projectStep aFlds res (seen, rows) t = (seen, rows) from by
            simp [projectStep, hm],
          show dedupFold (seen, []) t.id = (seen, ([] : List Nat)) from by
            simp [dedupFold, hm]]
        have hih := ih seen rows
        refine ⟨hih.1, ?_⟩
        rw [hih.2]
        congr 2
        unfold acceptedIds
        rw [List.foldl_cons,
          show dedupFold (seen, []) t.id = (seen, ([] : List Nat)) from by
            simp [dedupFold, hm]]
      · rw [show projectStep aFlds res (seen, rows) t
            = (t.id :: seen, rows ++ [buildRow res aFlds t]) from by
            simp [projectStep, hm],
          show dedupFold (seen, []) t.id = (t.id :: seen, [t.id]) from by
            simp [dedupFold, hm]]
        have hih := ih (t.id :: seen) (rows ++ [buildRow res aFlds t])
        constructor
        · rw [hih.1, dedupFold_acc (ts.map Ticket.id) (t.id :: seen) [t.id]]
        · rw [hih.2, List.map_append]
          have hrow : [buildRow res aFlds t].map (fun r => rowGet r "ID")
              = [pyNum t.id] := by
            simp [rowGet_buildRow_id res aFlds t h, pyNum]
          rw [hrow]
          have hacc : acceptedIds seen (t.id :: ts.map Ticket.id)
              = t.id :: acceptedIds (t.id :: seen) (ts.map Ticket.id) := by
            unfold acceptedIds
            rw [List.foldl_cons,
              show dedupFold (seen, []) t.id = (t.id :: seen, [t.id]) from by
                simp [dedupFold, hm],
              dedupFold_acc (ts.map Ticket.id) (t.id :: seen) [t.id]]
            simp
          rw [hacc]
          simp

theorem chunk_loop_spec (server : RefKind → List String → List RefEntity)
    (aFlds : List (String × String × String)) (h : ∀ f ∈ aFlds, f.1 ≠ "ID") :
    ∀ (chs : List (List Ticket)) (res : Resolver) (seen : List Nat) (rows : List Row),
      ((chs.foldl (projectChunkStep server aFlds) (res, (seen, rows))).2.1
        = ((chs.flatten.map Ticket.id).foldl dedupFold (seen, [])).1)
      ∧ ((chs.foldl (projectChunkStep server aFlds) (res, (seen, rows))).2.2.map
            (fun r => rowGet r "ID")
        = rows.map (fun r => rowGet r "ID")
          ++ (acceptedIds seen (chs.flatten.map Ticket.id)).map pyNum) := by
  intro chs
  induction chs with
  | nil => intro res seen rows; exact ⟨rfl, by simp [acceptedIds]⟩
  | cons ch chs ih =>
      intro res seen rows
      rw [List.foldl_cons,
        show projectChunkStep server aFlds (res, (seen, rows)) ch
          = (preloadFromTickets server res ch,
             ch.foldl (projectStep aFlds (preloadFromTickets server res ch)) (seen, rows))
          from rfl]
      have hps := proj_fold_spec aFlds (preloadFromTickets server res ch) h ch seen rows
      rcases hp : ch.foldl (projectStep aFlds (preloadFromTickets server res ch))
          (seen, rows) with ⟨s1, r1⟩
      rw [hp] at hps
      simp only [] at hps
      have hih := ih (preloadFromTickets server res ch) s1 r1
      rcases hq : (ch.map Ticket.id).foldl dedupFold (seen, []) with ⟨q1, q2⟩
      rw [hq] at hps
      simp only [] at hps
      constructor
      · rw [hih.1, hps.1]
        simp only [List.flatten_cons, List.map_append, List.foldl_append]
        rw [hq, dedupFold_acc (chs.flatten.map Ticket.id) q1 q2]
      · rw [hih.2, hps.2, hps.1]
        simp only [List.flatten_cons, List.map_append]
        rw [acceptedIds_append seen (ch.map Ticket.id) (chs.flatten.map Ticket.id)]
        rw [hq]
        simp only [List.map_append, List.append_assoc]

/-! ### Claim theorems -/

/-- C4: over any sequence of (possibly overlapping) windows with any
page contents, the harvested id list has no duplicates; every id that
appears as a ticket search result — in however many windows — appears
exactly once in it; and whenever the bulk `show_many` endpoint returns
exactly the tickets it is asked for, the harvested ticket sequence
contains each ticket id at most once. -/
theorem harvest_dedup (wp : List (List (List SearchResult)))
    (showMany : List Nat → List Ticket) :
    (harvestIds wp).Nodup
    ∧ (∀ r : SearchResult, r ∈ allResults wp → r.result_type = "ticket" →
        (harvestIds wp).count r.id = 1)
    ∧ ((∀ ids, (showMany ids).map Ticket.id = ids) →
        ((harvestTicketsInWindows showMany wp).map Ticket.id).Nodup) := by
  have hinv : hInv ((allResults wp).foldl hStep ([], [])) :=
    foldl_hStep_inv ⟨List.nodup_nil, by simp⟩
  have hnd : (harvestIds wp).Nodup := by rw [harvestIds_eq_flat]; exact hinv.1
  refine ⟨hnd, ?_, ?_⟩
  · intro r hr ht
    have hseen : r.id ∈ ((allResults wp).foldl hStep ([], [])).1 :=
      foldl_hStep_seen_of_mem hr ht
    have hmem : r.id ∈ harvestIds wp := by
      rw [harvestIds_eq_flat]
      exact (hinv.2 r.id).mpr hseen
    exact List.count_eq_one_of_mem hnd hmem
  · intro hsm
    simp only [harvestTicketsInWindows]
    split_ifs with he
    · simp
    · rw [foldl_append_eq_flatten_map]
      simp only [List.nil_append, List.map_flatten, List.map_map]
      have hmapeq : (chunksOf 100 (harvestIds wp)).map (List.map Ticket.id ∘ showMany)
          = (chunksOf 100 (harvestIds wp)).map id :=
        List.map_congr_left (fun c _ => hsm c)
      rw [hmapeq, List.map_id]
      unfold chunksOf
      rw [chunksAux_flatten]
      exact hnd

/-- C4 witness: the same ticket id 42 reported in two windows is
harvested once, with an id-echoing `show_many`. -/
theorem harvest_dedup_witness :
    (harvestIds [[[⟨"ticket", 42⟩]], [[⟨"ticket", 42⟩]]]).Nodup
    ∧ (harvestIds [[[⟨"ticket", 42⟩]], [[⟨"ticket", 42⟩]]]).count 42 = 1
    ∧ ((harvestTicketsInWindows (fun ids => ids.map mkTicket)
        [[[⟨"ticket", 42⟩]], [[⟨"ticket", 42⟩]]]).map Ticket.id).Nodup :=
  ⟨(harvest_dedup [[[⟨"ticket", 42⟩]], [[⟨"ticket", 42⟩]]]
      (fun ids => ids.map mkTicket)).1,
   (harvest_dedup [[[⟨"ticket", 42⟩]], [[⟨"ticket", 42⟩]]]
      (fun ids => ids.map mkTicket)).2.1 ⟨"ticket", 42⟩ (by decide) rfl,
   (harvest_dedup [[[⟨"ticket", 42⟩]], [[⟨"ticket", 42⟩]]]
      (fun ids => ids.map mkTicket)).2.2
     (fun ids => by
       rw [List.map_map]
       exact List.map_id'' (fun i => rfl) ids)⟩

/-- C9: the projection stage keeps its own seen-set: for any ticket
sequence (duplicates included, regardless of the harvest-stage dedup),
any field list whose display names do not collide with the standard
`"ID"` column, and any reference server, the emitted rows carry
pairwise-distinct `"ID"` cells — exactly the first-occurrence ids in
order. -/
theorem projection_dedup (server : RefKind → List String → List RefEntity)
    (aFlds : List (String × String × String)) (aTickets : List Ticket)
    (h : ∀ f ∈ aFlds, f.1 ≠ "ID") :
    ((projectRows server aFlds aTickets).map (fun r => rowGet r "ID")).Nodup
    ∧ (projectRows server aFlds aTickets).map (fun r => rowGet r "ID")
      = (acceptedIds [] (aTickets.map Ticket.id)).map pyNum := by
  have hmain := (chunk_loop_spec server aFlds h (chunksOf 50 aTickets) ⟨[], [], []⟩ [] []).2
  have hflat : (chunksOf 50 aTickets).flatten = aTickets := by
    unfold chunksOf
    exact chunksAux_flatten 50 aTickets.length aTickets
  rw [hflat] at hmain
  simp only [List.map_nil, List.nil_append] at hmain
  unfold projectRows
  refine ⟨?_, hmain⟩
  rw [hmain]
  refine List.Nodup.map ?_ ?_
  · intro a b hab
    simpa [pyNum] using hab
  · exact acceptedIds_nodup (aTickets.map Ticket.id) [] [] List.nodup_nil (by simp)

/-- C9 witness: a duplicated ticket id 7 produces a single row. -/
theorem projection_dedup_witness :
    ((projectRows (fun _ _ => []) [("Priority", "dropdown", "10001")]
        [mkTicket 7, mkTicket 7]).map (fun r => rowGet r "ID")).Nodup
    ∧ (projectRows (fun _ _ => []) [("Priority", "dropdown", "10001")]
        [mkTicket 7, mkTicket 7]).map (fun r => rowGet r "ID") = [pyNum 7] :=
  have T := projection_dedup (fun _ _ => []) [("Priority", "dropdown", "10001")]
    [mkTicket 7, mkTicket 7] (by decide)
  ⟨T.1, T.2.trans rfl⟩

/-- C1 (amended): with no date expression and no start/end time,
`buildWindowsUtc` always returns exactly one default shift window, and
the four branch conditions on the Manila time of day (the intervals
below 01:30, 01:30-09:30, 09:30-18:30, and from 18:30 on) partition the
24-hour day, so exactly one branch is chosen; but the returned window's
interval contains the current instant only in the second and fourth
branches — when "now" falls before 01:30 or between 09:30 and 18:30,
the selected shift window lies entirely in the future. -/
theorem defaultShift_window_selection (now : Int) :
    buildWindowsUtc none none none now = .ok [defaultShiftWindow now]
    ∧ (0 ≤ mnlSecOfDay now ∧ mnlSecOfDay now < 86400)
    ∧ (mnlSecOfDay now < 5400
        ∨ (5400 ≤ mnlSecOfDay now ∧ mnlSecOfDay now < 34200)
        ∨ (34200 ≤ mnlSecOfDay now ∧ mnlSecOfDay now < 66600)
        ∨ 66600 ≤ mnlSecOfDay now)
    ∧ ¬ (mnlSecOfDay now < 5400 ∧ 5400 ≤ mnlSecOfDay now)
    ∧ ¬ (mnlSecOfDay now < 34200 ∧ 34200 ≤ mnlSecOfDay now)
    ∧ ¬ (mnlSecOfDay now < 66600 ∧ 66600 ≤ mnlSecOfDay now)
    ∧ (((defaultShiftWindow now).startUtc ≤ now ∧ now ≤ (defaultShiftWindow now).endUtc) ↔
        ((5400 ≤ mnlSecOfDay now ∧ mnlSecOfDay now < 34200) ∨ 66600 ≤ mnlSecOfDay now)) := by
  have h0 : 0 ≤ (now + mnlOffset).emod 86400 := Int.emod_nonneg _ (by norm_num)
  have h1 : (now + mnlOffset).emod 86400 < 86400 := Int.emod_lt_of_pos _ (by norm_num)
  have hsec : mnlSecOfDay now = (now + mnlOffset).emod 86400 := rfl
  refine ⟨rfl, by rw [hsec]; omega, by rw [hsec]; omega, by rw [hsec]; omega,
    by rw [hsec]; omega, by rw [hsec]; omega, ?_⟩
  have hkey : 86400 * ((now + mnlOffset).ediv 86400) + (now + mnlOffset).emod 86400
      = now + mnlOffset := Int.ediv_add_emod _ _
  simp only [defaultShiftWindow, mnlDay, mnlSecOfDay, mnlToUtc, secPerDay,
    mnlOffset] at *
  split_ifs with hA hB hC <;> simp only [] <;> omega

/-- C1 witness: at the concrete instant `now = 0` (08:00 Manila, the
evening branch) the single returned window does contain the instant. -/
theorem defaultShift_window_selection_witness :
    buildWindowsUtc none none none 0 = .ok [defaultShiftWindow 0]
    ∧ ((defaultShiftWindow 0).startUtc ≤ 0 ∧ (0 : Int) ≤ (defaultShiftWindow 0).endUtc) :=
  ⟨(defaultShift_window_selection 0).1,
   (defaultShift_window_selection 0).2.2.2.2.2.2.mpr (by decide)⟩

/-- C1 counterexample to the claim as stated: at `now = 7200` (10:00
Manila) the selected "morning" window runs from 18:30 Manila that day,
so it does not contain the current instant. -/
theorem defaultShift_not_containing_now :
    buildWindowsUtc none none none 7200 = .ok [⟨37800, 81000, "morning"⟩]
    ∧ ¬ ((37800 : Int) ≤ 7200 ∧ (7200 : Int) ≤ 81000) := ⟨rfl, by decide⟩

/-- C2 (amended): `buildWindowsUtc` raises the invalid-expression error
exactly when some `OR`-separated term of the stripped date expression
fails to match the `YYYY-MM-DD TO YYYY-MM-DD` regex; in particular a
single date with no `TO` is not treated as a one-day range but is
itself an invalid term. -/
theorem dateExpr_requires_TO (expr : String) (sStartTime sEndTime : Option String)
    (now : Int) (h : expr ≠ "") :
    buildWindowsUtc (some expr) sStartTime sEndTime now = .error .invalidExpression ↔
      ∃ t ∈ splitOR (pyStrip expr), parseTerm t = none := by
  have htr : pyTruthy (some expr) = true := by simp [pyTruthy, h]
  unfold buildWindowsUtc
  rw [htr]
  simp only [if_true, Option.getD_some]
  cases hm : parseRangesExpr expr with
  | none =>
      unfold parseRangesExpr at hm
      exact iff_of_true rfl (mapOpt_eq_none_iff.mp hm)
  | some ranges =>
      refine iff_of_false (planWithRanges_ne_invalidExpression _ _ _ _) ?_
      rintro ⟨a, ha, hfa⟩
      have hnone : mapOpt parseTerm (splitOR (pyStrip expr)) = none :=
        mapOpt_eq_none_iff.mpr ⟨a, ha, hfa⟩
      unfold parseRangesExpr at hm
      rw [hnone] at hm
      exact absurd hm (by simp)

/-- C2 witness: an expression containing a single-date term among valid
terms is rejected as a whole. -/
theorem dateExpr_requires_TO_witness :
    buildWindowsUtc (some "2025-01-01 OR 2025-02-02 TO 2025-02-03") none none 0
      = .error .invalidExpression :=
  (dateExpr_requires_TO "2025-01-01 OR 2025-02-02 TO 2025-02-03" none none 0
      (by decide)).mpr ⟨"2025-01-01", by decide, by decide⟩

/-- C2 counterexample to the claim as stated: a lone single date
`YYYY-MM-DD` with no `TO` is not treated as a one-day range; it makes
`buildWindowsUtc` fail with the invalid-expression error. -/
theorem singleDate_term_rejected :
    buildWindowsUtc (some "2025-01-01") none none 0 = .error .invalidExpression := rfl

/-- C3 (amended): for every date expression whose N `OR`-separated
terms all parse, with no time window, `buildWindowsUtc` returns exactly
N windows in term order, the i-th window spanning local 00:00:00 on the
i-th term's start date to local 23:59:59 on its end date converted to
UTC; such a window satisfies `startUtc < endUtc` provided the term's
start date is on or before its end date (the code also accepts reversed
ranges, which produce `startUtc > endUtc`). -/
theorem dateOnly_windows (expr : String) (now : Int)
    (ranges : List (String × String)) (ws : List Window)
    (h1 : expr ≠ "")
    (h2 : parseRangesExpr expr = some ranges)
    (h3 : mapOpt termWindow ranges = some ws) :
    buildWindowsUtc (some expr) none none now = .ok ws
    ∧ ws.length = ranges.length
    ∧ (∀ i (hi : i < ranges.length) (hw : i < ws.length),
        termWindow (ranges.get ⟨i, hi⟩) = some (ws.get ⟨i, hw⟩))
    ∧ (∀ (r : String × String) (sd ed : Date) (w : Window),
        parseDate r.1 = some sd → parseDate r.2 = some ed →
        termWindow r = some w →
        w.startUtc = mnlToUtc sd.toOrdinal 0 ∧ w.endUtc = mnlToUtc ed.toOrdinal 86399
          ∧ w.label = "date-only"
          ∧ (sd.toOrdinal ≤ ed.toOrdinal → w.startUtc < w.endUtc)) := by
  have hne : ranges ≠ [] := by
    intro hnil
    subst hnil
    have hlen := mapOpt_length h2
    have := splitORAux_ne_nil (((pyStrip expr).data.length) + 1) (pyStrip expr).data []
    unfold parseRangesExpr splitOR at h2 hlen
    simp at hlen
    exact this (List.length_eq_zero.mp hlen.symm)
  refine ⟨?_, mapOpt_length h3, mapOpt_get h3, ?_⟩
  · have htr : pyTruthy (some expr) = true := by simp [pyTruthy, h1]
    unfold buildWindowsUtc
    rw [htr]
    simp only [if_true, Option.getD_some, h2]
    unfold planWithRanges
    rw [if_neg (by simp [pyTruthy, List.isEmpty_iff, hne])]
    rw [if_neg (by simp [pyTruthy])]
    unfold buildWindowsWithTimes
    rw [if_pos (by simp [List.isEmpty_iff, hne]), h3]
  · intro r sd ed w hsd hed hw
    unfold termWindow at hw
    rw [hsd, hed] at hw
    injection hw with hw
    subst hw
    refine ⟨rfl, rfl, rfl, ?_⟩
    intro hord
    simp only [mnlToUtc, secPerDay, mnlOffset]
    omega

/-- C3 witness: a two-term expression produces its two date-only
windows in term order. -/
theorem dateOnly_windows_witness :
    buildWindowsUtc (some "2025-01-01 TO 2025-01-02 OR 2025-02-03 TO 2025-02-03")
        none none 0
      = .ok [⟨1735660800, 1735833599, "date-only"⟩, ⟨1738512000, 1738598399, "date-only"⟩]
    ∧ ([⟨1735660800, 1735833599, "date-only"⟩,
        ⟨1738512000, 1738598399, "date-only"⟩] : List Window).length
      = [("2025-01-01", "2025-01-02"), ("2025-02-03", "2025-02-03")].length :=
  have T := dateOnly_windows "2025-01-01 TO 2025-01-02 OR 2025-02-03 TO 2025-02-03" 0
    [("2025-01-01", "2025-01-02"), ("2025-02-03", "2025-02-03")]
    [⟨1735660800, 1735833599, "date-only"⟩, ⟨1738512000, 1738598399, "date-only"⟩]
    (by decide) rfl rfl
  ⟨T.1, T.2.1⟩

/-- C3 counterexample to the claim as stated: the regex-valid reversed
range `2025-01-10 TO 2025-01-01` is accepted and yields a window with
`startUtc > endUtc`. -/
theorem dateOnly_windows_reversed_range :
    buildWindowsUtc (some "2025-01-10 TO 2025-01-01") none none 0
      = .ok [⟨1736438400, 1735747199, "date-only"⟩]
    ∧ ¬ ((1736438400 : Int) < 1735747199) := ⟨rfl, by decide⟩

/-- C7: `writeOutput` applies one uniform cell normalization — the CSV
and XLSX paths are the same function — sending `None` to the empty
string, mappings and sequences to their `json.dumps` serialization,
strings to copies with every CR and LF character replaced by a single
space (so the result never contains CR or LF), and all other scalars
through unchanged; every emitted cell is the normalization of the
looked-up row value, regardless of which column it came from. -/
theorem writeOutput_cell_normalization (v : PyVal) :
    csvCell v = xlsxCell v
    ∧ csvCell PyVal.none = .str ""
    ∧ (∀ d, csvCell (.dict d) = .str (jsonDumps (.dict d)))
    ∧ (∀ l, csvCell (.list l) = .str (jsonDumps (.list l)))
    ∧ (∀ s, csvCell (.str s) = .str (pyStripCRLF s))
    ∧ (∀ s, '\r' ∉ (pyStripCRLF s).data ∧ '\n' ∉ (pyStripCRLF s).data)
    ∧ (∀ n, csvCell (.num n) = .num n)
    ∧ (∀ b, csvCell (.bool b) = .bool b)
    ∧ (∀ (hs : List String) (rows : List Row) (r : List PyVal) (c : PyVal),
        r ∈ writeRows hs rows → c ∈ r →
        ∃ row ∈ rows, ∃ k ∈ hs, c = csvCell (rowGet row k)) := by
  refine ⟨by cases v <;> rfl, rfl, fun d => rfl, fun l => rfl, fun s => rfl, ?_,
    fun n => rfl, fun b => rfl, ?_⟩
  · intro s
    constructor <;>
      · intro hmem
        simp only [pyStripCRLF, pyReplaceChar, List.map_map, List.mem_map,
          Function.comp] at hmem
        obtain ⟨c, hc, heq⟩ := hmem
        split_ifs at heq <;> simp_all
  · intro hs rows r c hr hc
    simp only [writeRows, List.mem_map] at hr
    obtain ⟨row, hrow, hreq⟩ := hr
    subst hreq
    simp only [List.mem_map] at hc
    obtain ⟨k, hk, hkeq⟩ := hc
    exact ⟨row, hrow, k, hk, hkeq.symm⟩

/-- C7 witness: the normalization evaluated on a string containing a
CR-LF pair (each character becomes one space). -/
theorem writeOutput_cell_normalization_witness :
    csvCell (.str "a\r\nb") = xlsxCell (.str "a\r\nb")
    ∧ csvCell (.str "a\r\nb") = .str "a  b"
    ∧ '\r' ∉ (pyStripCRLF "a\r\nb").data :=
  ⟨(writeOutput_cell_normalization (.str "a\r\nb")).1,
   by rw [(writeOutput_cell_normalization (.str "a\r\nb")).2.2.2.2.1 "a\r\nb"]; rfl,
   ((writeOutput_cell_normalization (.str "a\r\nb")).2.2.2.2.2.1 "a\r\nb").1⟩

/-- C8: the three `resolve` readers are pure functions of the in-memory
caches (their definitions perform no fetch): for every cache state and
id they return the cached name when the stringified id is cached and
the empty string otherwise; in particular with org cache
`{"1": "Acme"}`, id 1 resolves to `"Acme"` and uncached id 2 to `""`. -/
theorem resolver_pure_cache_read (res : Resolver) (v : Option Nat) :
    (∀ s, alookup res.org (pyStrOpt v) = some s → org_name res v = s)
    ∧ (alookup res.org (pyStrOpt v) = none → org_name res v = "")
    ∧ (∀ s, alookup res.usr (pyStrOpt v) = some s → user_name res v = s)
    ∧ (alookup res.usr (pyStrOpt v) = none → user_name res v = "")
    ∧ (∀ s, alookup res.grp (pyStrOpt v) = some s → group_name res v = s)
    ∧ (alookup res.grp (pyStrOpt v) = none → group_name res v = "")
    ∧ org_name ⟨[("1", "Acme")], [], []⟩ (some 1) = "Acme"
    ∧ org_name ⟨[("1", "Acme")], [], []⟩ (some 2) = "" := by
  refine ⟨?_, ?_, ?_, ?_, ?_, ?_, rfl, rfl⟩ <;>
    first
      | (intro s h; simp [org_name, user_name, group_name, h])
      | (intro h; simp [org_name, user_name, group_name, h])

/-- C8 witness: the cached and uncached reads at the concrete cache
`{"1": "Acme"}`. -/
theorem resolver_pure_cache_read_witness :
    org_name ⟨[("1", "Acme")], [], []⟩ (some 1) = "Acme"
    ∧ org_name ⟨[("1", "Acme")], [], []⟩ (some 2) = "" :=
  ⟨(resolver_pure_cache_read ⟨[("1", "Acme")], [], []⟩ (some 1)).1 "Acme" rfl,
   (resolver_pure_cache_read ⟨[("1", "Acme")], [], []⟩ (some 2)).2.1 rfl⟩

/-- C5 (amended): with the server answering HTTP 429 / `Retry-After: 3`
twice and then 200, `_get_json` returns the third response's parsed body
having slept 3 + 3 seconds; in general a mid-budget 429 sleeps
`max(1, int(float(retryAfter)))` seconds — the server-suggested duration
truncated to an integer and clamped below at 1 — with fixed default 2
when the header is absent or unparsable, then retries; six 429s in a row
exhaust the attempt budget and are a fatal rate-limit error. -/
theorem getJson_429_schedule :
    getJson 6 [.resp ⟨429, some "3", none⟩, .resp ⟨429, some "3", none⟩,
        .resp ⟨200, none, some "body3"⟩] = some (.ok "body3", [3, 3])
    ∧ (∀ (n : Nat) (sleeps : List Nat) (ra : Option String) (b : Option String)
        (rest : List Attempt), n + 1 < 6 →
        getJsonAux 6 n sleeps (.resp ⟨429, ra, b⟩ :: rest)
          = getJsonAux 6 (n + 1) (sleeps ++ [sleepFor429 ra]) rest)
    ∧ sleepFor429 (some "3") = 3
    ∧ sleepFor429 none = 2
    ∧ sleepFor429 (some "soon") = 2
    ∧ getJson 6 (List.replicate 6 (.resp ⟨429, some "3", none⟩))
        = some (.error .rateLimitExhausted, [3, 3, 3, 3, 3]) := by
  refine ⟨rfl, ?_, rfl, rfl, rfl, rfl⟩
  intro n sleeps ra b rest h
  simp only [getJsonAux]
  norm_num
  exact fun h2 => absurd h2 (by omega)

/-- C5 witness: the general 429 step applied at a concrete state. -/
theorem getJson_429_schedule_witness :
    getJsonAux 6 2 [3, 3] (.resp ⟨429, some "7", some "x"⟩ ::
        [.resp ⟨200, none, some "B"⟩])
      = getJsonAux 6 3 ([3, 3] ++ [sleepFor429 (some "7")])
        [.resp ⟨200, none, some "B"⟩] :=
  getJson_429_schedule.2.1 2 [3, 3] (some "7") (some "x")
    [.resp ⟨200, none, some "B"⟩] (by decide)

/-- C5 counterexample to the claim as stated: the sleep is not always
the server-suggested duration.  With `Retry-After: 0` the code sleeps 1
second (the clamp `max(1, ...)`), not the suggested 0 seconds. -/
theorem getJson_429_sleep_not_suggested :
    getJson 6 [.resp ⟨429, some "0", none⟩, .resp ⟨200, none, some "B"⟩]
        = some (.ok "B", [1])
    ∧ sleepFor429 (some "0") ≠ 0 :=
  ⟨rfl, by decide⟩

/-- C6: a transport-level failure and an HTTP 5xx status both retry
after sleeping `min(2^(attempt-1), 30)` seconds — literally the same
schedule — and the run fails fatally on the 6th failing attempt; six
straight failures of either kind sleep `[1, 2, 4, 8, 16]` and end in the
corresponding fatal error. -/
theorem getJson_backoff_schedule :
    (∀ (n : Nat) (sleeps : List Nat) (rest : List Attempt), n + 1 < 6 →
        getJsonAux 6 n sleeps (.exn :: rest)
          = getJsonAux 6 (n + 1) (sleeps ++ [min (2 ^ n) 30]) rest)
    ∧ (∀ (n : Nat) (sleeps : List Nat) (st : Nat) (ra : Option String)
        (b : Option String) (rest : List Attempt),
        n + 1 < 6 → 500 ≤ st → st < 600 →
        getJsonAux 6 n sleeps (.resp ⟨st, ra, b⟩ :: rest)
          = getJsonAux 6 (n + 1) (sleeps ++ [min (2 ^ n) 30]) rest)
    ∧ getJson 6 (List.replicate 6 .exn)
        = some (.error .networkExhausted, [1, 2, 4, 8, 16])
    ∧ getJson 6 (List.replicate 6 (.resp ⟨503, none, none⟩))
        = some (.error .serverErrorExhausted, [1, 2, 4, 8, 16]) := by
  refine ⟨?_, ?_, rfl, rfl⟩
  · intro n sleeps rest h
    simp only [getJsonAux]
    rw [if_neg (by omega : ¬ n + 1 ≥ 6)]
    simp [backoff]
  · intro n sleeps st ra b rest h h5 h6
    simp only [getJsonAux]
    rw [if_neg (by omega : ¬ st = 429), if_pos (⟨h5, h6⟩ : 500 ≤ st ∧ st < 600),
      if_neg (by omega : ¬ n + 1 ≥ 6)]
    simp [backoff]

/-- C6 witness: the transport-error and 5xx steps applied at the same
concrete state sleep the same amount. -/
theorem getJson_backoff_schedule_witness :
    getJsonAux 6 1 [] (.exn :: [.resp ⟨200, none, some "B"⟩])
      = getJsonAux 6 2 ([] ++ [min (2 ^ 1) 30]) [.resp ⟨200, none, some "B"⟩]
    ∧ getJsonAux 6 1 [] (.resp ⟨502, none, none⟩ :: [.resp ⟨200, none, some "B"⟩])
      = getJsonAux 6 2 ([] ++ [min (2 ^ 1) 30]) [.resp ⟨200, none, some "B"⟩] :=
  ⟨getJson_backoff_schedule.1 1 [] [.resp ⟨200, none, some "B"⟩] (by decide),
   getJson_backoff_schedule.2.1 1 [] 502 none none
     [.resp ⟨200, none, some "B"⟩] (by decide) (by decide) (by decide)⟩

/-- C10: the 429 sleep is clamped with `max(1, ...)`: header values `"0"`
and `"0.5"` still produce a 1-second sleep, and no 429 sleep is ever
shorter than 1 second. -/
theorem sleepFor429_clamped :
    sleepFor429 (some "0") = 1
    ∧ sleepFor429 (some "0.5") = 1
    ∧ (∀ ra : Option String, 1 ≤ sleepFor429 ra)
    ∧ getJson 6 [.resp ⟨429, some "0.5", none⟩, .resp ⟨200, none, some "B"⟩]
        = some (.ok "B", [1]) := by
  refine ⟨rfl, rfl, ?_, rfl⟩
  intro ra
  unfold sleepFor429
  rcases h : pyIntOfFloatStr (ra.getD "2") with - | n
  · simp
  · simp only []
    omega

end Zap
